import Mathlib

/-!
Verification of the goshs shared-clipboard broadcast hub and of the
clipboard download route of the HTTP file server.

The HTTP layer (FileServer.cbDown and its response handling) is embedded
from src/main.go.  The Clipboard / Connection / Hub / wire-protocol core
lives in internal packages that are not part of the source tree here, so
those components are modelled from the specification, as noted on each
definition.
-/

/-- Modelled from the spec: a clipboard entry (internal/myclipboard is not
in the source tree).  Carries an opaque unique id assigned at creation, a
text payload and a creation timestamp. -/
structure ClipboardEntry where
  id : Nat
  content : String
  createdAt : Nat
deriving DecidableEq, Repr

/-- Modelled from the spec: the Clipboard owns the ordered sequence of
entries, insertion order preserved, plus the fresh-id counter used by add
(ids are never reused, so the counter only grows). -/
structure Clipboard where
  entries : List ClipboardEntry
  nextId : Nat
deriving DecidableEq, Repr

/-- Modelled from the spec: the clipboard created at server start is empty. -/
def Clipboard.new : Clipboard := ⟨[], 0⟩

/-- Modelled from the spec: add constructs a new entry with a fresh id and
the current timestamp, appends it, and returns it. -/
def Clipboard.add (cb : Clipboard) (content : String) (now : Nat) :
    Clipboard × ClipboardEntry :=
  let e : ClipboardEntry := ⟨cb.nextId, content, now⟩
  (⟨cb.entries ++ [e], cb.nextId + 1⟩, e)

/-- Modelled from the spec: remove deletes the entry with the given id if
present and returns whether anything was removed; removing a non-existent
id is a no-op, not an error. -/
def Clipboard.remove (cb : Clipboard) (i : Nat) : Clipboard × Bool :=
  (⟨cb.entries.filter (fun e => e.id != i), cb.nextId⟩,
   cb.entries.any (fun e => e.id == i))

/-- Modelled from the spec: list returns a snapshot of the ordered entry
sequence. -/
def Clipboard.list (cb : Clipboard) : List ClipboardEntry := cb.entries

/-- Modelled from the spec: one self-describing record per entry, carrying
id, content and timestamp. -/
def ClipboardEntry.record (e : ClipboardEntry) : String :=
  "id=" ++ toString e.id ++ ";content=" ++ e.content ++
    ";createdAt=" ++ toString e.createdAt ++ "\n"

/-- Modelled from the spec: serialize produces a self-describing export of
the current entries, a pure function of the current state. -/
def Clipboard.serialize (cb : Clipboard) : String :=
  String.join (cb.entries.map ClipboardEntry.record)

/-- Modelled from the spec: outbound wire-protocol messages.  A snapshot
carries the full ordered entry list; an add broadcast carries the created
entry; a remove broadcast carries the deleted id; ackError reports a
protocol violation. -/
inductive Msg where
  | snapshot (entries : List ClipboardEntry)
  | addNote (entry : ClipboardEntry)
  | removeNote (id : Nat)
  | ackError
deriving DecidableEq, Repr

/-- Modelled from the spec: inbound mutation requests carried by valid
wire-protocol envelopes: add carries content, remove carries the id to
delete. -/
inductive InMsg where
  | add (content : String)
  | remove (id : Nat)
deriving DecidableEq, Repr

/-- Modelled from the spec: one client connection as seen by the Hub: a
unique id and the FIFO outbound queue of pending messages (enqueue at the
tail, the write pump delivers from the head). -/
structure Connection where
  id : Nat
  outbound : List Msg
deriving DecidableEq, Repr

/-- Modelled from the spec: the Hub tracks the set of registered
connections and the single shared clipboard, and processes events one at a
time. -/
structure Hub where
  connections : List Connection
  clipboard : Clipboard
deriving DecidableEq, Repr

/-- Modelled from the spec: register adds the connection to the connection
set and immediately enqueues a full-snapshot message, built from the
current clipboard state, to that connection only. -/
def Hub.register (h : Hub) (cid : Nat) : Hub :=
  { h with connections :=
      h.connections ++ [⟨cid, [Msg.snapshot h.clipboard.entries]⟩] }

/-- Modelled from the spec: unregister removes the connection from the
connection set if present; idempotent, a no-op on unknown connections. -/
def Hub.unregister (h : Hub) (cid : Nat) : Hub :=
  { h with connections := h.connections.filter (fun c => c.id != cid) }

/-- Modelled from the spec: enqueue a batch of messages, in order, to every
currently registered connection. -/
def Hub.broadcastAll (h : Hub) (ms : List Msg) : Hub :=
  { h with connections :=
      h.connections.map (fun c => { c with outbound := c.outbound ++ ms }) }

/-- Modelled from the spec: apply an inbound mutation to the clipboard and
compute the change-notification messages to broadcast.  An add always
yields one add notification; a remove yields a remove notification only
when something was actually removed. -/
def Clipboard.applyIn (cb : Clipboard) (m : InMsg) (now : Nat) :
    Clipboard × List Msg :=
  match m with
  | InMsg.add content =>
      let r := cb.add content now
      (r.1, [Msg.addNote r.2])
  | InMsg.remove i =>
      let r := cb.remove i
      (r.1, if r.2 then [Msg.removeNote i] else [])

/-- Modelled from the spec: applyAndBroadcast interprets an inbound message
as an add or a remove, applies it to the clipboard, and on success enqueues
the corresponding change notification to every currently registered
connection, the originator included. -/
def Hub.applyAndBroadcast (h : Hub) (m : InMsg) (now : Nat) : Hub :=
  let r := h.clipboard.applyIn m now
  Hub.broadcastAll { h with clipboard := r.1 } r.2

/-- Modelled from the spec: the ordered stream of events consumed by the
Hub loop: registration, unregistration, or an inbound mutation accepted
from some origin connection at some time. -/
inductive HubEvent where
  | register (cid : Nat)
  | unregister (cid : Nat)
  | inbound (origin : Nat) (m : InMsg) (now : Nat)
deriving DecidableEq, Repr

/-- Modelled from the spec: one step of the Hub event loop. -/
def Hub.step (h : Hub) : HubEvent → Hub
  | HubEvent.register cid => h.register cid
  | HubEvent.unregister cid => h.unregister cid
  | HubEvent.inbound _ m now => h.applyAndBroadcast m now

/-- Modelled from the spec: the Hub loop consumes its event stream in
order, one event at a time. -/
def Hub.run (h : Hub) : List HubEvent → Hub
  | [] => h
  | ev :: evs => (h.step ev).run evs

/-- The change notifications an event broadcasts when processed in state h
(empty for registrations, unregistrations and no-op removes). -/
def Hub.eventNotes (h : Hub) : HubEvent → List Msg
  | HubEvent.inbound _ m now => (h.clipboard.applyIn m now).2
  | _ => []

/-- The single total order of change notifications broadcast while the Hub
processes an event stream from state h. -/
def Hub.broadcastLog (h : Hub) : List HubEvent → List Msg
  | [] => []
  | ev :: evs => h.eventNotes ev ++ (h.step ev).broadcastLog evs

/-- Modelled from the spec: a raw inbound wire envelope as decoded by the
read pump: a kind tag plus the optional payload fields. -/
structure Envelope where
  kind : String
  content : Option String
  id : Option Nat
deriving DecidableEq, Repr

/-- Wire kind tag of an inbound add request. -/
def addKind : String := "add"

/-- Wire kind tag of an inbound remove request. -/
def removeKind : String := "remove"

/-- Modelled from the spec: envelope validation by the read pump.  An
envelope is valid only when its kind is known and its required payload
field for that kind is present. -/
def parseEnvelope (env : Envelope) : Option InMsg :=
  if env.kind == addKind then env.content.map InMsg.add
  else if env.kind == removeKind then env.id.map InMsg.remove
  else none

/-- Modelled from the spec: the read pump forwards each valid inbound
message to the Hub and silently drops malformed envelopes (the drop policy,
applied consistently). -/
def Hub.readPump (h : Hub) (_origin : Nat) (env : Envelope) (now : Nat) : Hub :=
  match parseEnvelope env with
  | some m => h.applyAndBroadcast m now
  | none => h

/-- Modelled from the spec: the clipboard operations a caller can issue,
used to range over operation traces. -/
inductive CbOp where
  | add (content : String) (now : Nat)
  | remove (id : Nat)
  | list
  | serialize
deriving DecidableEq, Repr

/-- Whether an operation mutates the clipboard. -/
def CbOp.isMutation : CbOp → Bool
  | CbOp.add _ _ => true
  | CbOp.remove _ => true
  | CbOp.list => false
  | CbOp.serialize => false

/-- The state reached after one clipboard operation. -/
def CbOp.apply (op : CbOp) (cb : Clipboard) : Clipboard :=
  match op with
  | CbOp.add c n => (cb.add c n).1
  | CbOp.remove i => (cb.remove i).1
  | CbOp.list => cb
  | CbOp.serialize => cb

/-- The state reached after a trace of clipboard operations. -/
def runOps (cb : Clipboard) : List CbOp → Clipboard
  | [] => cb
  | op :: ops => runOps (op.apply cb) ops

/-- Clipboard well-formedness: entry ids are pairwise distinct and all lie
below the fresh-id counter. -/
def Clipboard.WF (cb : Clipboard) : Prop :=
  cb.entries.Pairwise (fun a b => a.id ≠ b.id) ∧
    ∀ e ∈ cb.entries, e.id < cb.nextId

/-- An http.ResponseWriter as the handlers in src/main.go drive it: the
accumulated header list, the status line once committed, and the sequence
of body writes.  WriteHeader commits the status only on its first call, and
Write commits status 200 when none has been set yet, matching net/http. -/
structure ResponseWriter where
  headers : List (String × String)
  status : Option Nat
  body : List String
deriving DecidableEq, Repr

/-- A fresh response writer, before the handler has touched it. -/
def ResponseWriter.empty : ResponseWriter := ⟨[], none, []⟩

/-- Header().Add appends a key-value pair. -/
def ResponseWriter.addHeader (w : ResponseWriter) (k v : String) :
    ResponseWriter :=
  { w with headers := w.headers ++ [(k, v)] }

/-- WriteHeader commits the status code; later calls are ignored. -/
def ResponseWriter.writeHeader (w : ResponseWriter) (s : Nat) :
    ResponseWriter :=
  match w.status with
  | none => { w with status := some s }
  | some _ => w

/-- Write appends a chunk to the body, committing status 200 first when no
status has been written yet. -/
def ResponseWriter.write (w : ResponseWriter) (b : String) : ResponseWriter :=
  { w with status := some (w.status.getD 200), body := w.body ++ [b] }

/-- The error page FileServer.handleError renders from the embedded
template, abstracted to its status code and message. -/
def errorTemplate (code : Nat) (msg : String) : String :=
  "error " ++ toString code ++ ": " ++ msg

/-- FileServer.handleError from src/main.go: WriteHeader(status), then the
error template is executed against the same writer, producing one body
write.  It does not terminate the calling handler. -/
def handleError (w : ResponseWriter) (msg : String) (status : Nat) :
    ResponseWriter :=
  (w.writeHeader status).write (errorTemplate status msg)

/-- The int32 conversion Go applies to time.Now().Unix() in cbDown:
two-complement truncation to 32 bits. -/
def int32cast (x : Int) : Int := (x + 2 ^ 31) % 2 ^ 32 - 2 ^ 31

/-- Header key Content-Type. -/
def contentTypeKey : String := "Content-Type"

/-- Content-Type value used for downloads. -/
def octetStream : String := "application/octet-stream"

/-- Header key Content-Disposition. -/
def contentDispositionKey : String := "Content-Disposition"

/-- Filename suffix of the clipboard export. -/
def cbSuffix : String := "-clipboard.json"

/-- The Content-Disposition value built in cbDown for a given filename. -/
def contentDisposition (filename : String) : String :=
  "attachment; filename=\"" ++ filename ++ "\""

/-- FileServer.cbDown from src/main.go: build the timestamped filename,
add the Content-Type and Content-Disposition headers, fetch the clipboard
download content, on error invoke handleError with status 500 without
returning, then write the content to the same response.  The result of the
Clipboard.Download call is passed in as the content and error pair. -/
def cbDown (ts : Int) (content : String) (dlErr : Option String)
    (w : ResponseWriter) : ResponseWriter :=
  let filename := toString (int32cast ts) ++ cbSuffix
  let w1 := w.addHeader contentTypeKey octetStream
  let w2 := w1.addHeader contentDispositionKey (contentDisposition filename)
  let w3 := match dlErr with
    | some e => handleError w2 e 500
    | none => w2
  w3.write content

/-- Helper: a connection that is present and never unregistered stays
present, with exactly the broadcast log of the processed events appended to
its outbound queue. -/
theorem Hub.run_mem (evs : List HubEvent) (h : Hub) (c : Connection)
    (hc : c ∈ h.connections)
    (hu : ∀ ev ∈ evs, ev ≠ HubEvent.unregister c.id) :
    Connection.mk c.id (c.outbound ++ h.broadcastLog evs) ∈
      (h.run evs).connections := by
  induction evs generalizing h c with
  | nil =>
      obtain ⟨i, q⟩ := c
      simpa [Hub.run, Hub.broadcastLog] using hc
  | cons ev evs ih =>
      have hu' : ∀ e ∈ evs, e ≠ HubEvent.unregister c.id :=
        fun e he => hu e (List.mem_cons_of_mem _ he)
      cases ev with
      | register cid =>
          have hc' : c ∈ (h.register cid).connections :=
            List.mem_append_left _ hc
          have := ih (h.register cid) c hc' hu'
          simpa [Hub.run, Hub.broadcastLog, Hub.step, Hub.eventNotes]
            using this
      | unregister cid =>
          have hne : cid ≠ c.id := by
            intro hEq
            exact hu _ (List.mem_cons_self _ _) (by rw [hEq])
          have hc' : c ∈ (h.unregister cid).connections := by
            refine List.mem_filter.mpr ⟨hc, ?_⟩
            simp [bne_iff_ne]
            exact fun hEq => hne hEq.symm
          have := ih (h.unregister cid) c hc' hu'
          simpa [Hub.run, Hub.broadcastLog, Hub.step, Hub.eventNotes]
            using this
      | inbound o m now =>
          set ms := (h.clipboard.applyIn m now).2 with hms
          have hc' :
              Connection.mk c.id (c.outbound ++ ms) ∈
                (h.applyAndBroadcast m now).connections := by
            have : (fun x : Connection =>
                { x with outbound := x.outbound ++ ms }) c ∈
                h.connections.map (fun x =>
                  { x with outbound := x.outbound ++ ms }) :=
              List.mem_map_of_mem _ hc
            simpa [Hub.applyAndBroadcast, Hub.broadcastAll, hms] using this
          have := ih (h.applyAndBroadcast m now)
            (Connection.mk c.id (c.outbound ++ ms)) hc' hu'
          simpa [Hub.run, Hub.broadcastLog, Hub.step, Hub.eventNotes,
            List.append_assoc, hms] using this

/-- A concrete hub with two registered connections over an empty clipboard,
used to instantiate the hypothesis-bearing theorems. -/
def hubW : Hub := ⟨[⟨1, []⟩, ⟨2, []⟩], Clipboard.new⟩

/-- A concrete event stream: connection 1 submits an add, connection 2
submits a remove of the entry just created. -/
def evsW : List HubEvent :=
  [HubEvent.inbound 1 (InMsg.add ("hello")) 7,
   HubEvent.inbound 2 (InMsg.remove 0) 9]

/-- Claim C1: for any interleaving of add and remove submissions, resolved
into the order in which the Hub accepts them, every connection registered
throughout has the same list of change notifications, namely the broadcast
log, appended to its queue in that one identical total order. -/
theorem hub_total_order (h : Hub) (evs : List HubEvent) (c₁ c₂ : Connection)
    (h1 : c₁ ∈ h.connections) (h2 : c₂ ∈ h.connections)
    (hu1 : ∀ ev ∈ evs, ev ≠ HubEvent.unregister c₁.id)
    (hu2 : ∀ ev ∈ evs, ev ≠ HubEvent.unregister c₂.id) :
    ∃ notes : List Msg, notes = h.broadcastLog evs ∧
      Connection.mk c₁.id (c₁.outbound ++ notes) ∈ (h.run evs).connections ∧
      Connection.mk c₂.id (c₂.outbound ++ notes) ∈ (h.run evs).connections :=
  ⟨h.broadcastLog evs, rfl, Hub.run_mem evs h c₁ h1 hu1,
    Hub.run_mem evs h c₂ h2 hu2⟩

/-- Witness for C1 at a concrete hub and event stream. -/
theorem hub_total_order_witness :
    ∃ notes : List Msg, notes = hubW.broadcastLog evsW ∧
      Connection.mk 1 ([] ++ notes) ∈ (hubW.run evsW).connections ∧
      Connection.mk 2 ([] ++ notes) ∈ (hubW.run evsW).connections :=
  hub_total_order hubW evsW ⟨1, []⟩ ⟨2, []⟩ (by decide) (by decide)
    (by decide) (by decide)

/-- Claim C2: a connection registering when the clipboard holds exactly K
entries is added to the connection set with exactly the snapshot of those K
entries enqueued, the queues of the previously registered connections are
untouched by the registration, and after any further events that do not
unregister it, its queue is that snapshot followed by the subsequent
broadcasts, so FIFO delivery hands it the snapshot first. -/
theorem register_snapshot (h : Hub) (cid : Nat) (K : Nat)
    (evs : List HubEvent)
    (hK : h.clipboard.entries.length = K)
    (hu : ∀ ev ∈ evs, ev ≠ HubEvent.unregister cid) :
    (∀ c ∈ h.connections, c ∈ (h.register cid).connections) ∧
    (h.clipboard.entries.length = K) ∧
    Connection.mk cid
        (Msg.snapshot h.clipboard.entries ::
          (h.register cid).broadcastLog evs) ∈
      ((h.register cid).run evs).connections := by
  refine ⟨fun c hc => List.mem_append_left _ hc, hK, ?_⟩
  have hmem : Connection.mk cid [Msg.snapshot h.clipboard.entries] ∈
      (h.register cid).connections := by
    simp [Hub.register]
  have := Hub.run_mem evs (h.register cid)
    (Connection.mk cid [Msg.snapshot h.clipboard.entries]) hmem hu
  simpa using this

/-- A concrete hub whose clipboard already holds two entries. -/
def hub2W : Hub :=
  ⟨[⟨1, []⟩, ⟨2, []⟩], ⟨[⟨0, "alpha", 1⟩, ⟨1, "beta", 2⟩], 2⟩⟩

/-- Witness for C2: a connection registering against a two-entry clipboard
receives exactly that snapshot first. -/
theorem register_snapshot_witness :
    (∀ c ∈ hub2W.connections, c ∈ (hub2W.register 5).connections) ∧
    (hub2W.clipboard.entries.length = 2) ∧
    Connection.mk 5
        (Msg.snapshot hub2W.clipboard.entries ::
          (hub2W.register 5).broadcastLog evsW) ∈
      ((hub2W.register 5).run evsW).connections :=
  register_snapshot hub2W 5 2 evsW (by decide) (by decide)

/-- Helper: a remove that removed nothing leaves the clipboard unchanged. -/
theorem Clipboard.remove_absent (cb : Clipboard) (i : Nat)
    (h : (cb.remove i).2 = false) : (cb.remove i).1 = cb := by
  simp only [Clipboard.remove] at h
  rw [List.any_eq_false] at h
  have hf : cb.entries.filter (fun e => e.id != i) = cb.entries := by
    refine List.filter_eq_self.mpr ?_
    intro e he
    simp only [bne_iff_ne, ne_eq]
    intro hEq
    exact h e he (by simp [hEq])
  simp [Clipboard.remove, hf]

/-- Helper: broadcasting no messages changes nothing. -/
theorem Hub.broadcastAll_nil (h : Hub) : h.broadcastAll [] = h := by
  simp [Hub.broadcastAll]

/-- Claim C3: applyAndBroadcast interprets an inbound message as an add or
a remove, applies it to the clipboard, and on success enqueues the matching
change notification to every currently registered connection, the
originator being one of them; a remove of an absent id changes nothing,
broadcasts nothing, and is not an error (the step is total and returns
normally). -/
theorem applyAndBroadcast_spec (h : Hub) (now : Nat) :
    (∀ content : String,
      (h.applyAndBroadcast (InMsg.add content) now).clipboard =
        (h.clipboard.add content now).1 ∧
      ∀ c ∈ h.connections,
        Connection.mk c.id
            (c.outbound ++ [Msg.addNote (h.clipboard.add content now).2]) ∈
          (h.applyAndBroadcast (InMsg.add content) now).connections) ∧
    (∀ i : Nat, (h.clipboard.remove i).2 = true →
      (h.applyAndBroadcast (InMsg.remove i) now).clipboard =
        (h.clipboard.remove i).1 ∧
      ∀ c ∈ h.connections,
        Connection.mk c.id (c.outbound ++ [Msg.removeNote i]) ∈
          (h.applyAndBroadcast (InMsg.remove i) now).connections) ∧
    (∀ i : Nat, (h.clipboard.remove i).2 = false →
      h.applyAndBroadcast (InMsg.remove i) now = h) := by
  refine ⟨?_, ?_, ?_⟩
  · intro content
    constructor
    · simp [Hub.applyAndBroadcast, Hub.broadcastAll, Clipboard.applyIn]
    · intro c hc
      have := List.mem_map_of_mem
        (fun x : Connection =>
          { x with outbound := x.outbound ++ [Msg.addNote
              (h.clipboard.add content now).2] }) hc
      simpa [Hub.applyAndBroadcast, Hub.broadcastAll, Clipboard.applyIn]
        using this
  · intro i hi
    constructor
    · simp [Hub.applyAndBroadcast, Hub.broadcastAll, Clipboard.applyIn, hi]
    · intro c hc
      have := List.mem_map_of_mem
        (fun x : Connection =>
          { x with outbound := x.outbound ++ [Msg.removeNote i] }) hc
      simpa [Hub.applyAndBroadcast, Hub.broadcastAll, Clipboard.applyIn, hi]
        using this
  · intro i hi
    have hcb := Clipboard.remove_absent h.clipboard i hi
    simp [Hub.applyAndBroadcast, Clipboard.applyIn, hi, hcb,
      Hub.broadcastAll_nil]

/-- Witness for C3: on the two-connection hub, an add notification reaches
connection 2 as well as the originator, and a remove of the absent id 9 is
a complete no-op. -/
theorem applyAndBroadcast_spec_witness :
    (Connection.mk 2
        ([] ++ [Msg.addNote (hubW.clipboard.add ("hello") 7).2]) ∈
      (hubW.applyAndBroadcast (InMsg.add ("hello")) 7).connections) ∧
    hubW.applyAndBroadcast (InMsg.remove 9) 7 = hubW :=
  ⟨((applyAndBroadcast_spec hubW 7).1 ("hello")).2 ⟨2, []⟩ (by decide),
   (applyAndBroadcast_spec hubW 7).2.2 9 (by decide)⟩

/-- Helper: the filtered entry list after a remove contains no entry with
the removed id. -/
theorem Clipboard.remove_not_mem (cb : Clipboard) (i : Nat) :
    ∀ e ∈ (cb.remove i).1.entries, e.id ≠ i := by
  intro e he
  simp only [Clipboard.remove, List.mem_filter, bne_iff_ne, ne_eq] at he
  exact he.2

/-- Claim C4: remove deletes exactly the entry with the given id when
present and reports whether anything was removed; on an absent id it
succeeds, returns false and leaves the entries unchanged, and a second
remove of the same id is such a no-op that additionally broadcasts nothing
when driven through the Hub. -/
theorem remove_spec (cb : Clipboard) (i : Nat) :
    ((cb.remove i).2 = true ↔ ∃ e ∈ cb.entries, e.id = i) ∧
    (∀ e ∈ (cb.remove i).1.entries, e ∈ cb.entries ∧ e.id ≠ i) ∧
    (∀ e ∈ cb.entries, e.id ≠ i → e ∈ (cb.remove i).1.entries) ∧
    ((cb.remove i).2 = false → (cb.remove i).1 = cb) ∧
    ((cb.remove i).1.remove i = ((cb.remove i).1, false)) ∧
    (∀ h : Hub, ∀ now : Nat, h.clipboard = (cb.remove i).1 →
      h.applyAndBroadcast (InMsg.remove i) now = h) := by
  have hsecond : (cb.remove i).1.remove i = ((cb.remove i).1, false) := by
    have hany : (cb.remove i).1.entries.any (fun e => e.id == i) = false := by
      rw [List.any_eq_false]
      intro e he
      simp only [beq_iff_eq]
      exact Clipboard.remove_not_mem cb i e he
    have hfix : (cb.remove i).1.entries.filter (fun e => e.id != i) =
        (cb.remove i).1.entries := by
      refine List.filter_eq_self.mpr ?_
      intro e he
      simp only [bne_iff_ne, ne_eq]
      exact Clipboard.remove_not_mem cb i e he
    simp [Clipboard.remove, hany, hfix]
  refine ⟨?_, ?_, ?_, Clipboard.remove_absent cb i, hsecond, ?_⟩
  · simp [Clipboard.remove, List.any_eq_true]
  · intro e he
    simp only [Clipboard.remove, List.mem_filter, bne_iff_ne, ne_eq] at he
    exact he
  · intro e he hne
    simp only [Clipboard.remove, List.mem_filter, bne_iff_ne, ne_eq]
    exact ⟨he, hne⟩
  · intro h now hcb
    have hfalse : (h.clipboard.remove i).2 = false := by
      rw [hcb, hsecond]
    have habs := Clipboard.remove_absent h.clipboard i hfalse
    simp [Hub.applyAndBroadcast, Clipboard.applyIn, hfalse, habs,
      Hub.broadcastAll_nil]

/-- Witness for C4: on a two-entry clipboard, removing id 0 succeeds, and
the double remove returns false the second time. -/
theorem remove_spec_witness :
    ((hub2W.clipboard.remove 0).2 = true ↔
      ∃ e ∈ hub2W.clipboard.entries, e.id = 0) ∧
    ((hub2W.clipboard.remove 0).1.remove 0 =
      ((hub2W.clipboard.remove 0).1, false)) ∧
    (hubW.applyAndBroadcast (InMsg.remove 0) 3 = hubW) :=
  ⟨(remove_spec hub2W.clipboard 0).1,
   (remove_spec hub2W.clipboard 0).2.2.2.2.1,
   (remove_spec Clipboard.new 0).2.2.2.2.2 hubW 3 (by decide)⟩

/-- Claim C5: serialize is a pure function of the clipboard state: across
any stretch of an operation trace containing no mutation, its output is
byte-identical to the output at the start of the stretch. -/
theorem serialize_pure (cb : Clipboard) (ops : List CbOp)
    (hro : ∀ op ∈ ops, op.isMutation = false) :
    (runOps cb ops).serialize = cb.serialize := by
  induction ops generalizing cb with
  | nil => rfl
  | cons op ops ih =>
      have hop : op.isMutation = false := hro op (List.mem_cons_self _ _)
      have hro' : ∀ o ∈ ops, o.isMutation = false :=
        fun o ho => hro o (List.mem_cons_of_mem _ ho)
      cases op with
      | add c n => simp [CbOp.isMutation] at hop
      | remove i => simp [CbOp.isMutation] at hop
      | list => simpa [runOps, CbOp.apply] using ih cb hro'
      | serialize => simpa [runOps, CbOp.apply] using ih cb hro'

/-- Witness for C5: two serialize calls separated only by reads agree. -/
theorem serialize_pure_witness :
    (runOps hub2W.clipboard [CbOp.list, CbOp.serialize]).serialize =
      hub2W.clipboard.serialize :=
  serialize_pure hub2W.clipboard [CbOp.list, CbOp.serialize] (by decide)

/-- Helper: the empty clipboard is well-formed. -/
theorem Clipboard.new_WF : Clipboard.new.WF := by
  constructor
  · simp [Clipboard.new]
  · intro e he
    simp [Clipboard.new] at he

/-- Helper: add preserves well-formedness. -/
theorem Clipboard.add_WF (cb : Clipboard) (hwf : cb.WF) (content : String)
    (now : Nat) : (cb.add content now).1.WF := by
  obtain ⟨hpw, hbd⟩ := hwf
  constructor
  · simp only [Clipboard.add]
    rw [List.pairwise_append]
    refine ⟨hpw, List.pairwise_singleton _ _, ?_⟩
    intro a ha b hb
    simp only [List.mem_singleton] at hb
    subst hb
    exact Nat.ne_of_lt (hbd a ha)
  · intro e he
    simp only [Clipboard.add, List.mem_append, List.mem_singleton] at he
    rcases he with he | he
    · exact Nat.lt_succ_of_lt (hbd e he)
    · subst he
      exact Nat.lt_succ_self _

/-- Helper: remove preserves well-formedness. -/
theorem Clipboard.remove_WF (cb : Clipboard) (hwf : cb.WF) (i : Nat) :
    (cb.remove i).1.WF := by
  obtain ⟨hpw, hbd⟩ := hwf
  constructor
  · exact hpw.sublist (List.filter_sublist _)
  · intro e he
    exact hbd e (List.mem_of_mem_filter he)

/-- Helper: every operation trace preserves well-formedness. -/
theorem runOps_WF (ops : List CbOp) (cb : Clipboard) (hwf : cb.WF) :
    (runOps cb ops).WF := by
  induction ops generalizing cb with
  | nil => exact hwf
  | cons op ops ih =>
      cases op with
      | add c n => exact ih _ (Clipboard.add_WF cb hwf c n)
      | remove i => exact ih _ (Clipboard.remove_WF cb hwf i)
      | list => exact ih _ hwf
      | serialize => exact ih _ hwf

/-- Claim C6: in every state reachable from the fresh clipboard the entry
ids are pairwise distinct, the invariant is preserved by add and remove,
add assigns an id fresh with respect to every current entry while leaving
the existing entries untouched, and remove only deletes (the surviving
sequence is a sublist of the original), so entries are never edited in
place. -/
theorem clipboard_ids_unique :
    (∀ ops : List CbOp, (runOps Clipboard.new ops).WF) ∧
    (∀ cb : Clipboard, cb.WF → ∀ content : String, ∀ now : Nat,
      (cb.add content now).1.WF ∧
      (∀ e ∈ cb.entries, e.id ≠ (cb.add content now).2.id) ∧
      (∀ e ∈ cb.entries, e ∈ (cb.add content now).1.entries)) ∧
    (∀ cb : Clipboard, cb.WF → ∀ i : Nat,
      (cb.remove i).1.WF ∧ (cb.remove i).1.entries.Sublist cb.entries) := by
  refine ⟨fun ops => runOps_WF ops Clipboard.new Clipboard.new_WF,
    ?_, ?_⟩
  · intro cb hwf content now
    refine ⟨Clipboard.add_WF cb hwf content now, ?_, ?_⟩
    · intro e he
      exact Nat.ne_of_lt (hwf.2 e he)
    · intro e he
      exact List.mem_append_left _ he
  · intro cb hwf i
    exact ⟨Clipboard.remove_WF cb hwf i, List.filter_sublist _⟩

/-- Witness for C6: adding to the two-entry clipboard keeps the invariant
and assigns a fresh id, and a remove on it only deletes. -/
theorem clipboard_ids_unique_witness :
    ((hub2W.clipboard.add ("gamma") 3).1.WF ∧
      (∀ e ∈ hub2W.clipboard.entries,
        e.id ≠ (hub2W.clipboard.add ("gamma") 3).2.id) ∧
      (∀ e ∈ hub2W.clipboard.entries,
        e ∈ (hub2W.clipboard.add ("gamma") 3).1.entries)) ∧
    ((hub2W.clipboard.remove 0).1.WF ∧
      (hub2W.clipboard.remove 0).1.entries.Sublist hub2W.clipboard.entries) :=
  ⟨clipboard_ids_unique.2.1 hub2W.clipboard
      ⟨by decide, by decide⟩ ("gamma") 3,
   clipboard_ids_unique.2.2 hub2W.clipboard
      ⟨by decide, by decide⟩ 0⟩

/-- Claim C7: unregister only removes the connection with the given id,
touches neither the clipboard nor any other connection, is idempotent, and
is a no-op when no registered connection carries that id. -/
theorem unregister_spec (h : Hub) (cid : Nat) :
    ((h.unregister cid).unregister cid = h.unregister cid) ∧
    ((h.unregister cid).clipboard = h.clipboard) ∧
    (∀ c ∈ (h.unregister cid).connections, c ∈ h.connections ∧ c.id ≠ cid) ∧
    (∀ c ∈ h.connections, c.id ≠ cid → c ∈ (h.unregister cid).connections) ∧
    ((∀ c ∈ h.connections, c.id ≠ cid) → h.unregister cid = h) := by
  refine ⟨?_, rfl, ?_, ?_, ?_⟩
  · have hfix : (h.connections.filter (fun c => c.id != cid)).filter
        (fun c => c.id != cid) =
        h.connections.filter (fun c => c.id != cid) :=
      List.filter_eq_self.mpr (fun c hc => (List.mem_filter.mp hc).2)
    simp only [Hub.unregister]
    rw [hfix]
  · intro c hc
    have hc' := List.mem_filter.mp hc
    refine ⟨hc'.1, ?_⟩
    simpa [bne_iff_ne] using hc'.2
  · intro c hc hne
    refine List.mem_filter.mpr ⟨hc, ?_⟩
    simpa [bne_iff_ne] using hne
  · intro hall
    have hfix : h.connections.filter (fun c => c.id != cid) =
        h.connections := by
      refine List.filter_eq_self.mpr ?_
      intro c hc
      simpa [bne_iff_ne] using hall c hc
    simp only [Hub.unregister]
    rw [hfix]

/-- Witness for C7: unregistering the never-registered id 9 leaves the
two-connection hub unchanged, and a double unregister of id 1 equals a
single one. -/
theorem unregister_spec_witness :
    ((hubW.unregister 1).unregister 1 = hubW.unregister 1) ∧
    (hubW.unregister 9 = hubW) :=
  ⟨(unregister_spec hubW 1).1,
   (unregister_spec hubW 9).2.2.2.2 (by decide)⟩

/-- Claim C8: a malformed inbound envelope, one whose kind is unknown or
whose required payload field for its kind is missing, is rejected by the
read pump: parsing fails and the processing step leaves the clipboard and
every registered connection, in particular every connection other than the
sender, exactly as they were. -/
theorem malformed_isolated (h : Hub) (a : Nat) (env : Envelope) (now : Nat)
    (hm : (env.kind ≠ addKind ∧ env.kind ≠ removeKind) ∨
      (env.kind = addKind ∧ env.content = none) ∨
      (env.kind = removeKind ∧ env.id = none)) :
    parseEnvelope env = none ∧
    (h.readPump a env now).clipboard = h.clipboard ∧
    ∀ b ∈ h.connections, b ∈ (h.readPump a env now).connections := by
  have hp : parseEnvelope env = none := by
    rcases hm with ⟨h1, h2⟩ | ⟨h1, h2⟩ | ⟨h1, h2⟩
    · simp [parseEnvelope, h1, h2]
    · simp [parseEnvelope, h1, h2]
    · have hk : env.kind ≠ addKind := by
        rw [h1]
        decide
      simp [parseEnvelope, hk, h1, h2]
      intro hEq
      exact absurd hEq (by decide)
  have hfix : h.readPump a env now = h := by
    simp [Hub.readPump, hp]
  exact ⟨hp, by rw [hfix], by rw [hfix]; exact fun b hb => hb⟩

/-- Witness for C8: an envelope with an unknown kind is dropped without any
effect on the hub. -/
theorem malformed_isolated_witness :
    parseEnvelope ⟨"bogus", none, none⟩ = none ∧
    (hub2W.readPump 1 ⟨"bogus", none, none⟩ 4).clipboard =
      hub2W.clipboard ∧
    ∀ b ∈ hub2W.connections,
      b ∈ (hub2W.readPump 1 ⟨"bogus", none, none⟩ 4).connections :=
  malformed_isolated hub2W 1 ⟨"bogus", none, none⟩ 4
    (Or.inl ⟨by decide, by decide⟩)

/-- Helper: the int32 truncation is the identity on timestamps that fit in
a signed 32-bit integer. -/
theorem int32cast_eq (ts : Int) (h0 : 0 ≤ ts) (h1 : ts < 2 ^ 31) :
    int32cast ts = ts := by
  have e31 : (2 : Int) ^ 31 = 2147483648 := by norm_num
  have e32 : (2 : Int) ^ 32 = 4294967296 := by norm_num
  rw [e31] at h1
  unfold int32cast
  rw [e31, e32]
  omega

/-- Claim C9: for a current Unix timestamp, the clipboard download handler
adds Content-Type application/octet-stream and a Content-Disposition
attachment header whose filename embeds the timestamp followed by
-clipboard.json, and writes the serialized clipboard content, obtained from
the clipboard alone, as the response body. -/
theorem cbDown_spec (ts : Int) (cb : Clipboard) (w : ResponseWriter)
    (h0 : 0 ≤ ts) (h1 : ts < 2 ^ 31) :
    (cbDown ts cb.serialize none w).headers =
      w.headers ++
        [(contentTypeKey, octetStream),
         (contentDispositionKey,
           contentDisposition (toString ts ++ cbSuffix))] ∧
    (cbDown ts cb.serialize none w).body = w.body ++ [cb.serialize] := by
  have hcast := int32cast_eq ts h0 h1
  constructor <;>
    simp [cbDown, ResponseWriter.addHeader, ResponseWriter.write, hcast]

/-- Witness for C9 at timestamp 100 on the empty clipboard. -/
theorem cbDown_spec_witness :
    (cbDown 100 Clipboard.new.serialize none ResponseWriter.empty).headers =
      ResponseWriter.empty.headers ++
        [(contentTypeKey, octetStream),
         (contentDispositionKey,
           contentDisposition (toString (100 : Int) ++ cbSuffix))] ∧
    (cbDown 100 Clipboard.new.serialize none ResponseWriter.empty).body =
      ResponseWriter.empty.body ++ [Clipboard.new.serialize] :=
  cbDown_spec 100 Clipboard.new ResponseWriter.empty (by norm_num)
    (by norm_num)

/-- Claim C10: when Clipboard.Download fails, cbDown runs handleError with
status 500 and then, having not returned, still writes the returned content
to the same response, so the committed status is 500 and the body carries
the rendered error page followed by the content. -/
theorem cbDown_error_writes_both (ts : Int) (content : String) (e : String) :
    (cbDown ts content (some e) ResponseWriter.empty).status = some 500 ∧
    (cbDown ts content (some e) ResponseWriter.empty).body =
      [errorTemplate 500 e, content] :=
  ⟨rfl, rfl⟩
